import Mathlib

/-!
Verification of the agent tool-calling core (`src/agent.ts`, `src/capability.ts`,
`src/types.ts`) of the Vortexa SDK.

The embedding is shallow: TypeScript classes become Lean structures, thrown
exceptions become `Except Err`, and the external collaborators (the zod schema
validators, the capability `run` functions, the JSON parser `JSON.parse`, and
the OpenAI chat-completion client) are parameters of the model, quantified over
in the theorems.  Side effects that the specification talks about — invocations
of capability `run` functions and notifications sent to the centralized error
handler `handleError` — are made observable by having each embedded operation
return an explicit trace of them.
-/

namespace Vortexa

/-! ### Errors and error-handler events

The code throws either plain `Error` values or classes from the `http-errors`
package (`BadRequest` is the only one used; `NotFound` exists in that package
but is never constructed by this code).  We record which class was thrown
together with the message. -/

inductive ErrKind where
  | badRequest
  | notFound
  | error
deriving DecidableEq, Repr

structure Err where
  kind : ErrKind
  message : String
deriving DecidableEq, Repr

/-- One notification delivered to the centralized error handler
(`this.handleError(error, \x7bcontext: tag, ...\x7d)` in the source); we record
the context tag and the error. -/
structure ErrorEvent where
  context : String
  err : Err
deriving DecidableEq, Repr

/-! ### Chat messages (the shapes of `ChatCompletionMessageParam` the code builds) -/

/-- The `function` field of a tool call:
`toolCall.function.\x7bname, arguments\x7d` where `arguments` is a raw JSON
string. -/
structure ToolFunction where
  name : String
  arguments : String
deriving DecidableEq, Repr

/-- One requested tool call.  The code checks `if (!toolCall.function)`, so the
field is modelled as optional. -/
structure ToolCall where
  id : String
  function : Option ToolFunction
deriving DecidableEq, Repr

/-- The assistant message inside a completion choice; `tool_calls` is optional
and the code treats `undefined` and `[]` alike (`!lastMessage.tool_calls?.length`). -/
structure AssistantMessage where
  content : Option String
  tool_calls : Option (List ToolCall)
deriving DecidableEq, Repr

/-- The content string of a tool-result message.  The code builds it with
either `JSON.stringify(result)` (a JSON string) or
`JSON.stringify(\x7berror: message\x7d)` (a one-field JSON object); the
constructor records which of the two serializations was used. -/
inductive ToolContent where
  | jsonOf (result : String)
  | jsonErrorObj (message : String)
deriving DecidableEq, Repr

/-- A chat message as assembled by the code: system/user seeds, the assistant
message pushed verbatim, and tool-result messages
`\x7brole: tool, content, tool_call_id\x7d`. -/
inductive ChatMessage where
  | system (content : String)
  | user (content : String)
  | assistant (m : AssistantMessage)
  | tool (content : ToolContent) (tool_call_id : String)
deriving DecidableEq, Repr

/-- One choice of a chat completion; the code checks `choices[0]?.message`, so
`message` is modelled as optional. -/
structure Choice where
  message : Option AssistantMessage
deriving DecidableEq, Repr

/-- A chat completion response from the OpenAI collaborator. -/
structure Completion where
  choices : List Choice
deriving DecidableEq, Repr

/-! ### Action model (`types.ts`)

Only the parts of the two action payloads that the default handlers read
(`action.task?.description`, `action.messages`) are carried; the rest of the
large zod object schemas is irrelevant to every claim and is absorbed into the
per-variant validator functions, which the model takes as parameters. -/

structure TaskInfo where
  id : Int
  description : String
deriving DecidableEq, Repr

structure DoTaskAction where
  task : TaskInfo
deriving DecidableEq, Repr

structure ChatTurn where
  author : String
  message : String
deriving DecidableEq, Repr

structure RespondChatMessageAction where
  messages : List ChatTurn
deriving DecidableEq, Repr

/-- The parse result of `actionSchema = z.discriminatedUnion('type', [doTask, respondChat])`. -/
inductive Action where
  | doTask (a : DoTaskAction)
  | respondChatMessage (a : RespondChatMessageAction)
deriving DecidableEq, Repr

/-! ### Raw JSON values (request bodies hitting the root route) -/

inductive Json where
  | null
  | bool (b : Bool)
  | num (n : Int)
  | str (s : String)
  | arr (elems : List Json)
  | obj (fields : List (String × Json))
deriving Repr

/-- Property lookup on a JSON object literal. -/
def lookupField : List (String × Json) → String → Option Json
  | [], _ => none
  | (k, v) :: rest, key => if k = key then some v else lookupField rest key

/-! ### Capability (`capability.ts`)

`schema` stands for the zod validator `schema.parseAsync` (input possibly
`undefined`, hence `Option`), `run` for the user-supplied execute function,
which may throw.  `V` is the type of runtime argument values. -/

structure Capability (V : Type) where
  name : String
  description : String
  schema : Option V → Except Err V
  run : V → Option Action → List ChatMessage → Except Err String

/-- Membership test `this.tools.some(tool => tool.name === name)`. -/
def hasName {V : Type} (tools : List (Capability V)) (name : String) : Bool :=
  tools.any fun t => t.name == name

/-! ### Registry operations (`Agent.addCapability`, `Agent.addCapabilities`) -/

/-- Embeds `Agent.addCapability`: reject a duplicate name before pushing,
otherwise append.  A thrown `Error` is the `.error` case; the tools list is
produced only on success (the check precedes the push, so a failing call
mutates nothing). -/
def addCapability {V : Type} (tools : List (Capability V)) (c : Capability V) :
    Except Err (List (Capability V)) :=
  if hasName tools c.name then
    .error ⟨.error, "Tool with name \"" ++ c.name ++ "\" already exists"⟩
  else
    .ok (tools ++ [c])

/-- Embeds `Agent.addCapabilities`: a `for` loop over the list calling
`addCapability`; the first throw aborts the loop, leaving `this.tools` at
whatever state the earlier successful calls produced.  The pair returned is
(final tools state, thrown error if any). -/
def addCapabilities {V : Type} (tools : List (Capability V)) :
    List (Capability V) → List (Capability V) × Option Err
  | [] => (tools, none)
  | c :: rest =>
    match addCapability tools c with
    | .ok tools2 => addCapabilities tools2 rest
    | .error e => (tools, some e)

/-- Boolean predicate: every element of the list registers without a name
clash when added in order on top of `tools`. -/
def addsCleanly {V : Type} (tools : List (Capability V)) : List (Capability V) → Bool
  | [] => true
  | c :: rest => !hasName tools c.name && addsCleanly (tools ++ [c]) rest

/-! ### Tool route (`Agent.handleToolRoute`) -/

/-- The request shape `\x7bparams: \x7btoolName\x7d, body: \x7bargs?, action?, messages?\x7d\x7d`.
`toolName` is optional to reflect the defensive check
`if (!('toolName' in req.params))`. -/
structure ToolRouteRequest (V : Type) where
  toolName : Option String
  args : Option V
  action : Option Action
  messages : Option (List ChatMessage)

/-- What the route returns to the HTTP caller: `\x7bresult\x7d` or the catch-all
`\x7berror: message\x7d` envelope. -/
inductive RouteResponse where
  | result (r : String)
  | error (message : String)
deriving DecidableEq, Repr

/-- Observable outcome of one `handleToolRoute` call: the response envelope,
the trace of capability `run` invocations (name, args), and the error-handler
notifications. -/
structure RouteOutput (V : Type) where
  response : RouteResponse
  runCalls : List (String × V)
  errors : List ErrorEvent

/-- The catch branch of `handleToolRoute`: notify the handler with context
`handle_tool_route` and return the `\x7berror\x7d` envelope. -/
def routeFail {V : Type} (e : Err) (calls : List (String × V)) : RouteOutput V :=
  { response := .error e.message
    runCalls := calls
    errors := [⟨"handle_tool_route", e⟩] }

/-- Embeds `Agent.handleToolRoute`: missing-name check, registry lookup
(`BadRequest` on both failures), `schema.parseAsync` on `req.body?.args`,
then `tool.run(\x7bargs, action\x7d, messages ?? [])`; every thrown error is
caught, notified with context `handle_tool_route`, and returned as
`\x7berror: message\x7d`. -/
def handleToolRoute {V : Type} (tools : List (Capability V)) (req : ToolRouteRequest V) :
    RouteOutput V :=
  match req.toolName with
  | none => routeFail ⟨.badRequest, "Tool name is required"⟩ []
  | some name =>
    match tools.find? (fun t => t.name == name) with
    | none => routeFail ⟨.badRequest, "Tool \"" ++ name ++ "\" not found"⟩ []
    | some tool =>
      match tool.schema req.args with
      | .error e => routeFail e []
      | .ok args =>
        match tool.run args req.action (req.messages.getD []) with
        | .ok r => { response := .result r, runCalls := [(tool.name, args)], errors := [] }
        | .error e => routeFail e [(tool.name, args)]

/-! ### Root route (`Agent.handleRootRoute`)

The zod discriminated union `actionSchema` dispatches on the string property
`type`: a non-object body or an unrecognized discriminator fails immediately;
a recognized discriminator delegates to that variant's full object validator,
which the model takes as a parameter (`parseDoTask`, `parseRespondChat`). -/

def parseAction (parseDoTask : Json → Except Err DoTaskAction)
    (parseRespondChat : Json → Except Err RespondChatMessageAction)
    (body : Json) : Except Err Action :=
  match body with
  | .obj fields =>
    match lookupField fields "type" with
    | some (.str "do-task") => (parseDoTask body).map Action.doTask
    | some (.str "respond-chat-message") => (parseRespondChat body).map Action.respondChatMessage
    | _ => .error ⟨.error, "Invalid discriminator value"⟩
  | _ => .error ⟨.error, "Expected object"⟩

/-- An invocation of one of the two overridable handlers. -/
inductive HandlerCall where
  | doTask (a : DoTaskAction)
  | respondToChat (a : RespondChatMessageAction)
deriving DecidableEq, Repr

/-- Observable outcome of `handleRootRoute`: which handlers were dispatched
(fire-and-forget, not awaited) and which error-handler notifications fired.
The function is total: the route never throws to the HTTP layer. -/
structure RootOutput where
  handlerCalls : List HandlerCall
  errors : List ErrorEvent

/-- Embeds `Agent.handleRootRoute`: `actionSchema.parseAsync(req.body)`, then
dispatch on `action.type`; any throw is caught and notified with context
`handle_root_route`, after which the route returns normally.  The
`else throw new Error('Invalid action type')` branch of the source is
unreachable because the parse result is exactly the two-variant union. -/
def handleRootRoute (parseDoTask : Json → Except Err DoTaskAction)
    (parseRespondChat : Json → Except Err RespondChatMessageAction)
    (body : Json) : RootOutput :=
  match parseAction parseDoTask parseRespondChat body with
  | .ok (.doTask a) => { handlerCalls := [.doTask a], errors := [] }
  | .ok (.respondChatMessage a) => { handlerCalls := [.respondToChat a], errors := [] }
  | .error e => { handlerCalls := [], errors := [⟨"handle_root_route", e⟩] }

/-! ### Agent construction (`Agent.constructor`) and configuration -/

/-- JavaScript string truthiness: the empty string is falsy, so
`a || b || ''` skips empty strings. -/
def truthyStr : Option String → Option String
  | some s => if s = "" then none else some s
  | none => none

def DEFAULT_PORT : Nat := 7378

structure AgentOptions where
  port : Option Nat
  apiKey : Option String
  systemPrompt : String
  openaiApiKey : Option String

/-- The process environment variables the constructor and `process` read. -/
structure EnvVars where
  OPENSERV_API_KEY : Option String
  OPENAI_API_KEY : Option String

/-- Evaluates `this.options.apiKey || process.env.OPENSERV_API_KEY || ''`. -/
def resolveApiKey (opts : AgentOptions) (env : EnvVars) : String :=
  ((truthyStr opts.apiKey).orElse fun _ => truthyStr env.OPENSERV_API_KEY).getD ""

/-- Evaluates `this.options.openaiApiKey || process.env.OPENAI_API_KEY`,
as checked at the top of `process` (and in the `openai` getter). -/
def resolveOpenaiKey (opts : AgentOptions) (env : EnvVars) : Option String :=
  (truthyStr opts.openaiApiKey).orElse fun _ => truthyStr env.OPENAI_API_KEY

/-- The configuration state a successfully constructed Agent holds. -/
structure AgentConfig where
  port : Nat
  systemPrompt : String
  apiKey : String

/-- Embeds the credential-relevant part of `Agent`'s constructor: resolve the
platform key with JS truthiness and fail fast when it is empty.  The OpenAI
key is not inspected at construction time. -/
def mkAgent (opts : AgentOptions) (env : EnvVars) : Except Err AgentConfig :=
  let apiKey := resolveApiKey opts env
  if apiKey = "" then
    .error ⟨.error,
      "OpenServ API key is required. Please provide it in options or set OPENSERV_API_KEY environment variable."⟩
  else
    .ok { port := match opts.port with
                  | some p => if p = 0 then DEFAULT_PORT else p
                  | none => DEFAULT_PORT
          systemPrompt := opts.systemPrompt
          apiKey := apiKey }

/-! ### Conversation loop (`Agent.process`)

Arrays are modelled with an explicit store so that the mutation discipline of
the source is visible: `[...messages]` allocates a fresh array initialized
with a copy of the caller's contents, and `currentMessages.push(...)` writes
only to that fresh array.  A reference is an index into the store.  A
capability `run` receives the current contents of `currentMessages` by value;
in JavaScript it receives the array reference, but since only the fresh copy
is ever passed to it, no reference reachable from `run` aliases the
caller-supplied array. -/

structure MsgStore where
  arrays : List (List ChatMessage)

def MsgStore.getArr (st : MsgStore) (r : Nat) : List ChatMessage :=
  st.arrays.getD r []

/-- Allocate a new array with the given initial contents; returns the new
store and the reference to the fresh array. -/
def MsgStore.alloc (st : MsgStore) (ms : List ChatMessage) : MsgStore × Nat :=
  (⟨st.arrays ++ [ms]⟩, st.arrays.length)

/-- `arr.push(...ms)` on the array behind reference `r`. -/
def MsgStore.push (st : MsgStore) (r : Nat) (ms : List ChatMessage) : MsgStore :=
  ⟨st.arrays.set r (st.getArr r ++ ms)⟩

/-- The external collaborators `process` talks to: the chat-completion client
(`chat n` is the response to the n-th `create` call, counted from 0) and the
JSON parser applied to tool-call argument strings (`JSON.parse`; `.error`
carries the SyntaxError message). -/
structure ChatEnv (V : Type) where
  chat : Nat → Completion
  parseJson : String → Except String V

/-- Result of one entry of the `Promise.all` batch: `outcome` is the settled
promise (`.error` = rejected, which happens only for the synchronous throws
`Tool call function is missing` and a `JSON.parse` failure, both raised
outside the per-call `try`), plus the traces of `run` invocations and
`tool_execution` error-handler notifications the entry produced. -/
structure CallResult (V : Type) where
  outcome : Except Err ChatMessage
  runCalls : List (String × V)
  errors : List ErrorEvent

/-- Embeds the body of `lastMessage.tool_calls.map(async toolCall => ...)` in
`process`.  The missing-function check and `JSON.parse(args)` precede the
`try` block, so their throws reject the entry; inside the `try`, a failed
registry lookup or a throwing `run` is caught, notified with context
`tool_execution`, and converted into a tool-result message whose content is
`JSON.stringify(\x7berror: message\x7d)`. -/
def execToolCall {V : Type} (tools : List (Capability V)) (env : ChatEnv V)
    (curMsgs : List ChatMessage) (tc : ToolCall) : CallResult V :=
  match tc.function with
  | none => { outcome := .error ⟨.error, "Tool call function is missing"⟩
              runCalls := [], errors := [] }
  | some fn =>
    match env.parseJson fn.arguments with
    | .error msg => { outcome := .error ⟨.error, msg⟩, runCalls := [], errors := [] }
    | .ok parsedArgs =>
      match tools.find? (fun t => t.name == fn.name) with
      | none =>
        let e : Err := ⟨.error, "Tool \"" ++ fn.name ++ "\" not found"⟩
        { outcome := .ok (.tool (.jsonErrorObj e.message) tc.id)
          runCalls := []
          errors := [⟨"tool_execution", e⟩] }
      | some tool =>
        match tool.run parsedArgs none curMsgs with
        | .ok result =>
          { outcome := .ok (.tool (.jsonOf result) tc.id)
            runCalls := [(fn.name, parsedArgs)]
            errors := [] }
        | .error e =>
          { outcome := .ok (.tool (.jsonErrorObj e.message) tc.id)
            runCalls := [(fn.name, parsedArgs)]
            errors := [⟨"tool_execution", e⟩] }

/-- `Promise.all` over the settled entries: the first rejected entry (in call
list order — every rejection here comes from a synchronous throw, so creation
order decides) rejects the batch, otherwise the list of tool-result messages
in call order. -/
def collectOutcomes {V : Type} : List (CallResult V) → Except Err (List ChatMessage)
  | [] => .ok []
  | r :: rest =>
    match r.outcome with
    | .error e => .error e
    | .ok m => (collectOutcomes rest).map fun ms => m :: ms

/-- Aggregate of one round's `Promise.all(...)`: the batch outcome plus all
side-effect traces (the entries run regardless of a sibling rejection —
`Promise.all` does not cancel started promises). -/
structure BatchResult (V : Type) where
  outcome : Except Err (List ChatMessage)
  runCalls : List (String × V)
  errors : List ErrorEvent

def runToolCallBatch {V : Type} (tools : List (Capability V)) (env : ChatEnv V)
    (curMsgs : List ChatMessage) (tcs : List ToolCall) : BatchResult V :=
  let results := tcs.map (execToolCall tools env curMsgs)
  { outcome := collectOutcomes results
    runCalls := (results.map CallResult.runCalls).flatten
    errors := (results.map CallResult.errors).flatten }

/-- The checks `!completion.choices?.length || !completion.choices[0]?.message`
collapsed into one optional read. -/
def completionMessage (c : Completion) : Option AssistantMessage :=
  match c.choices with
  | [] => none
  | ch :: _ => ch.message

/-- Observable outcome of a `process` call: the returned completion or the
thrown error, the number of chat-completion collaborator calls made, the
traces of `run` invocations and error-handler notifications, and the final
array store together with the reference of `currentMessages`. -/
structure ProcessOutput (V : Type) where
  result : Except Err Completion
  chatCalls : Nat
  runCalls : List (String × V)
  errors : List ErrorEvent
  store : MsgStore
  curRef : Nat

def MAX_ITERATIONS : Nat := 10

/-- Combine one completed round with the outcome of the remaining loop. -/
def addRound {V : Type} (b : BatchResult V) (out : ProcessOutput V) : ProcessOutput V :=
  { out with
    chatCalls := out.chatCalls + 1
    runCalls := b.runCalls ++ out.runCalls
    errors := b.errors ++ out.errors }

/-- Embeds the `while (iterationCount < MAX_ITERATIONS)` loop of `process`.
`remaining` is `MAX_ITERATIONS - iterationCount`, `callIdx` counts the
`create` calls already made, `cur` is the reference of `currentMessages`.
Each iteration: call the collaborator; throw `No response from OpenAI` when
no choice/message is present; return the completion when there are no tool
calls; otherwise run the batch, abort on a rejected batch, else push the
assistant message and the tool results and continue.  Exhausting the budget
throws `Max iterations reached without completion`. -/
def processLoop {V : Type} (tools : List (Capability V)) (env : ChatEnv V) :
    Nat → Nat → MsgStore → Nat → ProcessOutput V
  | 0, _, st, cur =>
    { result := .error ⟨.error, "Max iterations reached without completion"⟩
      chatCalls := 0, runCalls := [], errors := [], store := st, curRef := cur }
  | remaining + 1, callIdx, st, cur =>
    let completion := env.chat callIdx
    match completionMessage completion with
    | none =>
      { result := .error ⟨.error, "No response from OpenAI"⟩
        chatCalls := 1, runCalls := [], errors := [], store := st, curRef := cur }
    | some lastMessage =>
      match lastMessage.tool_calls with
      | none =>
        { result := .ok completion
          chatCalls := 1, runCalls := [], errors := [], store := st, curRef := cur }
      | some [] =>
        { result := .ok completion
          chatCalls := 1, runCalls := [], errors := [], store := st, curRef := cur }
      | some (tc :: tcs) =>
        let batch := runToolCallBatch tools env (st.getArr cur) (tc :: tcs)
        match batch.outcome with
        | .error e =>
          { result := .error e
            chatCalls := 1, runCalls := batch.runCalls, errors := batch.errors
            store := st, curRef := cur }
        | .ok toolMsgs =>
          addRound batch
            (processLoop tools env remaining (callIdx + 1)
              (st.push cur (.assistant lastMessage :: toolMsgs)) cur)

/-- Embeds `Agent.process`: check the OpenAI credential, copy the caller's
messages array (`[...messages]`) into a freshly allocated array, run the
loop, and route any thrown error through the centralized handler with context
`process` before rethrowing (the outer try/catch). -/
def process {V : Type} (opts : AgentOptions) (env : EnvVars)
    (tools : List (Capability V)) (chatEnv : ChatEnv V)
    (st : MsgStore) (messagesRef : Nat) : ProcessOutput V :=
  match resolveOpenaiKey opts env with
  | none =>
    let e : Err := ⟨.error,
      "OpenAI API key is required for process(). Please provide it in options or set OPENAI_API_KEY environment variable."⟩
    { result := .error e, chatCalls := 0, runCalls := []
      errors := [⟨"process", e⟩], store := st, curRef := st.arrays.length }
  | some _ =>
    let alloc := st.alloc (st.getArr messagesRef)
    let out := processLoop tools chatEnv MAX_ITERATIONS 0 alloc.1 alloc.2
    match out.result with
    | .ok _ => out
    | .error e => { out with errors := out.errors ++ [⟨"process", e⟩] }

/-! ### Concrete instantiations used by witnesses and counterexamples -/

/-- The n-th collaborator response carries an assistant message with a
nonempty tool-call list, each call well-formed (function present, arguments
JSON-parseable).  Hypothesis of the iteration-exhaustion statements. -/
def roundHasToolCalls {V : Type} (env : ChatEnv V) (n : Nat) : Prop :=
  ∃ m tcs, completionMessage (env.chat n) = some m ∧ m.tool_calls = some tcs ∧ tcs ≠ []
    ∧ ∀ tc ∈ tcs, ∃ fn v, tc.function = some fn ∧ env.parseJson fn.arguments = .ok v

def c3capA : Capability Nat :=
  { name := "alpha", description := "first"
    schema := fun o => .ok (o.getD 0)
    run := fun _ _ _ => .ok "A" }

def c3capB : Capability Nat :=
  { name := "beta", description := "second"
    schema := fun o => .ok (o.getD 0)
    run := fun _ _ _ => .ok "B" }

def c3capA2 : Capability Nat :=
  { name := "alpha", description := "clashing"
    schema := fun o => .ok (o.getD 0)
    run := fun _ _ _ => .ok "A2" }

def c4cap : Capability Nat :=
  { name := "echo", description := "echoes"
    schema := fun o =>
      match o with
      | some v => if v < 10 then .ok v else .error ⟨.error, "too large"⟩
      | none => .error ⟨.error, "Required"⟩
    run := fun v _ _ => .ok (toString v) }

def c8parseDoTask : Json → Except Err DoTaskAction :=
  fun _ => .ok ⟨⟨1, "demo"⟩⟩

def c8parseRespondChat : Json → Except Err RespondChatMessageAction :=
  fun _ => .ok ⟨[]⟩

def c6chatEnv : ChatEnv Nat :=
  { chat := fun _ => ⟨[⟨some ⟨some "done", none⟩⟩]⟩
    parseJson := fun _ => .error "unused" }

def c1echo : Capability Nat :=
  { name := "echo", description := "echoes a number"
    schema := fun o => .ok (o.getD 0)
    run := fun v _ _ => .ok (toString v) }

def c1chatEnv : ChatEnv Nat :=
  { chat := fun n =>
      if n = 0 then
        ⟨[⟨some ⟨none, some [⟨"call_1", some ⟨"echo", "bad"⟩⟩,
                             ⟨"call_2", some ⟨"echo", "5"⟩⟩]⟩⟩]⟩
      else ⟨[⟨some ⟨some "done", none⟩⟩]⟩
    parseJson := fun s => if s = "5" then .ok 5 else .error "Unexpected token" }

def c7chatEnv : ChatEnv Nat :=
  { chat := fun n =>
      if n = 0 then ⟨[⟨some ⟨none, some [⟨"call_9", some ⟨"echo", "oops"⟩⟩]⟩⟩]⟩
      else ⟨[⟨some ⟨some "done", none⟩⟩]⟩
    parseJson := fun s => if s = "oops" then .error "Unexpected token o" else .ok 0 }

def c7boom : Capability Nat :=
  { name := "boom", description := "always throws"
    schema := fun o => .ok (o.getD 0)
    run := fun _ _ _ => .error ⟨.error, "boom failed"⟩ }

def c7witnessEnv : ChatEnv Nat :=
  { chat := fun n =>
      if n = 0 then
        ⟨[⟨some ⟨none, some [⟨"call_a", some ⟨"ghost", "1"⟩⟩,
                             ⟨"call_b", some ⟨"boom", "2"⟩⟩]⟩⟩]⟩
      else ⟨[⟨some ⟨some "done", none⟩⟩]⟩
    parseJson := fun s => if s = "1" then .ok 1 else if s = "2" then .ok 2 else .error "bad" }

def c2strict : Capability Nat :=
  { name := "strict", description := "schema rejects every input"
    schema := fun _ => .error ⟨.error, "invalid input"⟩
    run := fun v _ _ => .ok (toString v) }

def c2chatEnv : ChatEnv Nat :=
  { chat := fun n =>
      if n = 0 then ⟨[⟨some ⟨none, some [⟨"call_1", some ⟨"strict", "7"⟩⟩]⟩⟩]⟩
      else ⟨[⟨some ⟨some "done", none⟩⟩]⟩
    parseJson := fun s => if s = "7" then .ok 7 else .error "Unexpected token" }

/-! ## Theorems -/

/-! ### Registry (claim C3) -/

theorem addCapabilities_clean_aux {V : Type} (caps : List (Capability V)) :
    ∀ tools, addsCleanly tools caps = true →
      addCapabilities tools caps = (tools ++ caps, none) := by
  induction caps with
  | nil => intro tools _; simp [addCapabilities]
  | cons c rest ih =>
    intro tools h
    simp only [addsCleanly, Bool.and_eq_true, Bool.not_eq_true'] at h
    simp only [addCapabilities, addCapability, h.1, Bool.false_eq_true, if_false]
    rw [ih _ h.2]
    simp

theorem addCapabilities_firstDup_aux {V : Type} (pre : List (Capability V)) :
    ∀ tools (c : Capability V) (post : List (Capability V)),
      addsCleanly tools pre = true →
      hasName (tools ++ pre) c.name = true →
      addCapabilities tools (pre ++ c :: post) =
        (tools ++ pre,
         some ⟨.error, "Tool with name \"" ++ c.name ++ "\" already exists"⟩) := by
  induction pre with
  | nil =>
    intro tools c post _ hdup
    simp only [List.append_nil] at hdup
    simp [addCapabilities, addCapability, hdup]
  | cons p rest ih =>
    intro tools c post hclean hdup
    simp only [addsCleanly, Bool.and_eq_true, Bool.not_eq_true'] at hclean
    simp only [List.cons_append, addCapabilities, addCapability, hclean.1,
      Bool.false_eq_true, if_false]
    have hdup' : hasName ((tools ++ [p]) ++ rest) c.name = true := by
      simpa [List.append_assoc] using hdup
    simp only [List.append_eq]
    rw [ih (tools ++ [p]) c post hclean.2 hdup']
    simp

/-- C3: `addCapabilities` registers the given capabilities one at a time in
list order.  If the list is clean the final state is the old tools followed by
every element, with no error.  If the list splits as `pre ++ c :: post` where
`pre` registers cleanly and `c` is the first name clash, the call fails with
the error naming that duplicate while the final state is exactly the old tools
plus `pre` (earlier registrations kept, the duplicate not added, the
previously registered capability of that name untouched).  Additionally, a
failing `addCapability` call itself produces no new tools list — the
duplicate check precedes the push. -/
theorem addCapabilities_first_duplicate_semantics {V : Type}
    (tools caps : List (Capability V)) :
    (addsCleanly tools caps = true →
      addCapabilities tools caps = (tools ++ caps, none))
    ∧ (∀ pre (c : Capability V) post, caps = pre ++ c :: post →
        addsCleanly tools pre = true →
        hasName (tools ++ pre) c.name = true →
        addCapabilities tools caps =
          (tools ++ pre,
           some ⟨.error, "Tool with name \"" ++ c.name ++ "\" already exists"⟩))
    ∧ (∀ (ts : List (Capability V)) (c : Capability V), hasName ts c.name = true →
        addCapability ts c =
          .error ⟨.error, "Tool with name \"" ++ c.name ++ "\" already exists"⟩) := by
  refine ⟨fun h => addCapabilities_clean_aux caps tools h, ?_, ?_⟩
  · intro pre c post hsplit hclean hdup
    subst hsplit
    exact addCapabilities_firstDup_aux pre tools c post hclean hdup
  · intro ts c h
    simp [addCapability, h]

/-- Witness for C3 at a concrete registration list with a duplicate in third
position: the first two stay registered, the duplicate is rejected. -/
theorem addCapabilities_first_duplicate_semantics_witness :
    addCapabilities ([] : List (Capability Nat)) [c3capA, c3capB, c3capA2] =
      ([c3capA, c3capB],
       some ⟨.error, "Tool with name \"alpha\" already exists"⟩) := by
  have h := (addCapabilities_first_duplicate_semantics
      ([] : List (Capability Nat)) [c3capA, c3capB, c3capA2]).2.1
      [c3capA, c3capB] c3capA2 [] rfl (by decide) (by decide)
  simpa using h

/-! ### Tool route (claims C4, C5) -/

/-- C4: for a registered tool, `handleToolRoute` never invokes `run` when the
args fail the tool's schema, and with schema-valid args invokes `run` exactly
once with the validated value and returns the `result` envelope built from
`run`'s return value. -/
theorem handleToolRoute_schema_gate {V : Type} (tools : List (Capability V))
    (req : ToolRouteRequest V) (name : String) (tool : Capability V)
    (hname : req.toolName = some name)
    (hfind : tools.find? (fun t => t.name == name) = some tool) :
    ((∃ e, tool.schema req.args = .error e) →
        (handleToolRoute tools req).runCalls = [])
    ∧ (∀ a, tool.schema req.args = .ok a →
        (handleToolRoute tools req).runCalls = [(tool.name, a)]
        ∧ ∀ r, tool.run a req.action (req.messages.getD []) = .ok r →
            (handleToolRoute tools req).response = .result r) := by
  simp only [handleToolRoute, hname, hfind]
  constructor
  · rintro ⟨e, he⟩
    simp [he, routeFail]
  · intro a ha
    simp only [ha]
    cases hrun : tool.run a req.action (req.messages.getD []) with
    | ok r =>
      exact ⟨rfl, fun r' hr => by cases hr; rfl⟩
    | error e =>
      exact ⟨rfl, fun r' hr => by cases hr⟩

/-- Witness for C4: dispatching `echo` with the valid argument `3` invokes
`run` exactly once and yields `result "3"`. -/
theorem handleToolRoute_schema_gate_witness :
    (handleToolRoute [c4cap]
        { toolName := some "echo", args := some 3, action := none, messages := none }).runCalls =
      [("echo", 3)]
    ∧ (handleToolRoute [c4cap]
        { toolName := some "echo", args := some 3, action := none, messages := none }).response =
      .result "3" := by
  have h := (handleToolRoute_schema_gate [c4cap]
      { toolName := some "echo", args := some 3, action := none, messages := none }
      "echo" c4cap rfl rfl).2 3 rfl
  exact ⟨h.1, h.2 "3" rfl⟩

/-- C5 counterexample: dispatching the unregistered name `missing` raises the
`http-errors` `BadRequest` class (an HTTP 400 condition) with message
`Tool "missing" not found` — not the `NotFound` class the claim names. -/
theorem handleToolRoute_unknown_tool_not_notFound :
    (handleToolRoute ([] : List (Capability Nat))
        { toolName := some "missing", args := none, action := none, messages := none }).errors =
      [⟨"handle_tool_route", ⟨.badRequest, "Tool \"missing\" not found"⟩⟩]
    ∧ ∀ ev ∈ (handleToolRoute ([] : List (Capability Nat))
          { toolName := some "missing", args := none, action := none, messages := none }).errors,
        ev.err.kind ≠ ErrKind.notFound := by
  exact ⟨by decide, by decide⟩

/-- C5 (amended): for every tool name absent from the registry,
`handleToolRoute` fails with a `BadRequest` error with message
`Tool "<name>" not found`, never invokes any run function, notifies the
centralized handler once with context tag `handle_tool_route`, and returns
the `error` envelope carrying the message. -/
theorem handleToolRoute_unknown_tool {V : Type} (tools : List (Capability V))
    (req : ToolRouteRequest V) (name : String)
    (hname : req.toolName = some name)
    (hfind : tools.find? (fun t => t.name == name) = none) :
    (handleToolRoute tools req).runCalls = []
    ∧ (handleToolRoute tools req).response =
        .error ("Tool \"" ++ name ++ "\" not found")
    ∧ (handleToolRoute tools req).errors =
        [⟨"handle_tool_route", ⟨.badRequest, "Tool \"" ++ name ++ "\" not found"⟩⟩] := by
  simp only [handleToolRoute, hname, hfind]
  exact ⟨rfl, rfl, rfl⟩

/-- Witness for the amended C5 at the concrete registry `[c4cap]` and the
unregistered name `ghost`. -/
theorem handleToolRoute_unknown_tool_witness :
    (handleToolRoute [c4cap]
        { toolName := some "ghost", args := none, action := none, messages := none }).runCalls = []
    ∧ (handleToolRoute [c4cap]
        { toolName := some "ghost", args := none, action := none, messages := none }).response =
      .error "Tool \"ghost\" not found"
    ∧ (handleToolRoute [c4cap]
        { toolName := some "ghost", args := none, action := none, messages := none }).errors =
      [⟨"handle_tool_route", ⟨.badRequest, "Tool \"ghost\" not found"⟩⟩] := by
  simpa using handleToolRoute_unknown_tool [c4cap]
    { toolName := some "ghost", args := none, action := none, messages := none } "ghost" rfl rfl

/-! ### Root route (claim C8) -/

/-- C8: whenever the request body fails validation against the action
discriminated union, `handleRootRoute` dispatches neither handler and fires
the centralized error handler exactly once, with context tag
`handle_root_route`; moreover any object body whose `type` discriminator is
neither recognized variant does fail validation, whatever the per-variant
validators do.  The route returns normally in every case: `handleRootRoute`
is a total function into `RootOutput`, with no error propagated to the
caller. -/
theorem handleRootRoute_validation_failure
    (parseDoTask : Json → Except Err DoTaskAction)
    (parseRespondChat : Json → Except Err RespondChatMessageAction) (body : Json) :
    (∀ e, parseAction parseDoTask parseRespondChat body = .error e →
        (handleRootRoute parseDoTask parseRespondChat body).handlerCalls = []
        ∧ (handleRootRoute parseDoTask parseRespondChat body).errors =
            [⟨"handle_root_route", e⟩])
    ∧ (∀ fields t, body = Json.obj fields →
        lookupField fields "type" = some (Json.str t) →
        t ≠ "do-task" → t ≠ "respond-chat-message" →
        ∃ e, parseAction parseDoTask parseRespondChat body = .error e) := by
  constructor
  · intro e he
    simp [handleRootRoute, he]
  · intro fields t hbody hlook ht1 ht2
    subst hbody
    simp only [parseAction, hlook]
    split
    · rename_i heq
      injection heq with heq
      injection heq with heq
      exact absurd heq ht1
    · rename_i heq
      injection heq with heq
      injection heq with heq
      exact absurd heq ht2
    · exact ⟨_, rfl⟩

/-- Witness for C8: a body whose discriminator is the unrecognized string
`mystery` dispatches no handler and produces exactly one
`handle_root_route` notification, even with variant validators that accept
everything. -/
theorem handleRootRoute_validation_failure_witness :
    (handleRootRoute c8parseDoTask c8parseRespondChat
        (Json.obj [("type", Json.str "mystery")])).handlerCalls = []
    ∧ (handleRootRoute c8parseDoTask c8parseRespondChat
        (Json.obj [("type", Json.str "mystery")])).errors =
      [⟨"handle_root_route", ⟨.error, "Invalid discriminator value"⟩⟩] :=
  (handleRootRoute_validation_failure c8parseDoTask c8parseRespondChat
    (Json.obj [("type", Json.str "mystery")])).1
    ⟨.error, "Invalid discriminator value"⟩ rfl

/-! ### Credentials (claim C9) -/

/-- C9: construction fails immediately with the configuration error when no
platform API key is supplied in either the options or the environment, and
succeeds whenever one is; a missing OpenAI credential never fails
construction (the constructor does not read it) but makes every `process`
call fail with the configuration error before any chat-completion
collaborator call is made. -/
theorem agent_credential_failfast :
    (∀ opts env, truthyStr opts.apiKey = none → truthyStr env.OPENSERV_API_KEY = none →
        mkAgent opts env = .error ⟨.error,
          "OpenServ API key is required. Please provide it in options or set OPENSERV_API_KEY environment variable."⟩)
    ∧ (∀ opts env, resolveApiKey opts env ≠ "" → ∃ cfg, mkAgent opts env = .ok cfg)
    ∧ (∀ (V : Type) opts env (tools : List (Capability V)) chatEnv st ref,
        resolveOpenaiKey opts env = none →
        (process opts env tools chatEnv st ref).chatCalls = 0
        ∧ (process opts env tools chatEnv st ref).result = .error ⟨.error,
            "OpenAI API key is required for process(). Please provide it in options or set OPENAI_API_KEY environment variable."⟩) := by
  refine ⟨?_, ?_, ?_⟩
  · intro opts env h1 h2
    have hkey : resolveApiKey opts env = "" := by
      simp [resolveApiKey, h1, h2, Option.orElse]
    simp [mkAgent, hkey]
  · intro opts env h
    refine ⟨{ port := match opts.port with
              | some p => if p = 0 then DEFAULT_PORT else p
              | none => DEFAULT_PORT
              systemPrompt := opts.systemPrompt
              apiKey := resolveApiKey opts env }, ?_⟩
    simp [mkAgent, h]
  · intro V opts env tools chatEnv st ref hkey
    constructor <;> simp [process, hkey]

/-- Witness for C9: with empty options and environment the constructor fails
with the platform-key error, and with a platform key but no OpenAI key the
constructor succeeds while `process` fails without calling the collaborator. -/
theorem agent_credential_failfast_witness :
    mkAgent ⟨none, none, "sys", none⟩ ⟨none, none⟩ = .error ⟨.error,
      "OpenServ API key is required. Please provide it in options or set OPENSERV_API_KEY environment variable."⟩
    ∧ (∃ cfg, mkAgent ⟨none, some "pk", "sys", none⟩ ⟨none, none⟩ = .ok cfg)
    ∧ (process ⟨none, some "pk", "sys", none⟩ ⟨none, none⟩
        ([] : List (Capability Nat)) ⟨fun _ => ⟨[]⟩, fun _ => .error "x"⟩
        ⟨[[ChatMessage.user "Hello"]]⟩ 0).chatCalls = 0 := by
  refine ⟨?_, ?_, ?_⟩
  · exact agent_credential_failfast.1 ⟨none, none, "sys", none⟩ ⟨none, none⟩ rfl rfl
  · exact agent_credential_failfast.2.1 ⟨none, some "pk", "sys", none⟩ ⟨none, none⟩ (by decide)
  · exact (agent_credential_failfast.2.2 Nat ⟨none, some "pk", "sys", none⟩ ⟨none, none⟩
      [] ⟨fun _ => ⟨[]⟩, fun _ => .error "x"⟩ ⟨[[ChatMessage.user "Hello"]]⟩ 0 rfl).1

/-! ### List and store helper lemmas -/

theorem list_getD_set_ne {α : Type} (a d : α) :
    ∀ (l : List α) (i j : Nat), i ≠ j → (l.set i a).getD j d = l.getD j d := by
  intro l
  induction l with
  | nil => intro i j _; cases i <;> simp [List.set]
  | cons x xs ih =>
    intro i j hne
    cases i with
    | zero =>
      cases j with
      | zero => exact absurd rfl hne
      | succ j => simp [List.set]
    | succ i =>
      cases j with
      | zero => simp [List.set]
      | succ j =>
        simp only [List.set, List.getD_cons_succ]
        exact ih i j fun h => hne (congrArg Nat.succ h)

theorem list_getD_append_left {α : Type} (d : α) :
    ∀ (l₁ l₂ : List α) (i : Nat), i < l₁.length → (l₁ ++ l₂).getD i d = l₁.getD i d := by
  intro l₁
  induction l₁ with
  | nil =>
    intro l₂ i h
    simp at h
  | cons x xs ih =>
    intro l₂ i h
    cases i with
    | zero => simp
    | succ i =>
      simp only [List.cons_append, List.getD_cons_succ]
      exact ih l₂ i (Nat.lt_of_succ_lt_succ h)

theorem list_getD_concat_length {α : Type} (d : α) :
    ∀ (l : List α) (a : α), (l ++ [a]).getD l.length d = a := by
  intro l
  induction l with
  | nil => intro a; rfl
  | cons x xs ih => intro a; simp [ih a]

theorem MsgStore.getArr_push_ne (st : MsgStore) (r i : Nat) (ms : List ChatMessage)
    (h : i ≠ r) : (st.push r ms).getArr i = st.getArr i :=
  list_getD_set_ne _ _ st.arrays r i (Ne.symm h)

/-! ### Per-call and batch lemmas -/

/-- A tool call with a `function` field and JSON-parseable arguments always
settles (its promise is fulfilled) with a tool-result message correlated by
the call's id, whatever the registry lookup and `run` do. -/
theorem execToolCall_ok {V : Type} (tools : List (Capability V)) (env : ChatEnv V)
    (curMsgs : List ChatMessage) (tc : ToolCall) (fn : ToolFunction) (v : V)
    (hfn : tc.function = some fn) (hp : env.parseJson fn.arguments = .ok v) :
    ∃ content, (execToolCall tools env curMsgs tc).outcome = .ok (.tool content tc.id) := by
  simp only [execToolCall, hfn, hp]
  cases hf : tools.find? (fun t => t.name == fn.name) with
  | none => exact ⟨_, rfl⟩
  | some tool =>
    dsimp only
    cases hr : tool.run v none curMsgs with
    | ok r => exact ⟨_, rfl⟩
    | error e => exact ⟨_, rfl⟩

/-- Every fulfilled per-call outcome is a tool-result message carrying the
call's id. -/
theorem execToolCall_ok_shape {V : Type} (tools : List (Capability V)) (env : ChatEnv V)
    (curMsgs : List ChatMessage) (tc : ToolCall) (m : ChatMessage)
    (h : (execToolCall tools env curMsgs tc).outcome = .ok m) :
    ∃ content, m = .tool content tc.id := by
  cases hfn : tc.function with
  | none => simp only [execToolCall, hfn] at h; cases h
  | some fn =>
    simp only [execToolCall, hfn] at h
    cases hp : env.parseJson fn.arguments with
    | error msg => simp only [hp] at h; cases h
    | ok v =>
      simp only [hp] at h
      cases hf : tools.find? (fun t => t.name == fn.name) with
      | none =>
        simp only [hf] at h
        injection h with h2
        exact ⟨_, h2.symm⟩
      | some tool =>
        simp only [hf] at h
        cases hr : tool.run v none curMsgs with
        | ok r =>
          simp only [hr] at h
          injection h with h2
          exact ⟨_, h2.symm⟩
        | error e =>
          simp only [hr] at h
          injection h with h2
          exact ⟨_, h2.symm⟩

/-- If every entry of the batch settles fulfilled, `Promise.all` fulfills
with the list of results in order. -/
theorem collectOutcomes_ok {V : Type} :
    ∀ (results : List (CallResult V)),
      (∀ r ∈ results, ∃ m, r.outcome = .ok m) →
      ∃ ms, collectOutcomes results = .ok ms ∧ ms.length = results.length
        ∧ ∀ i (h : i < results.length) (h2 : i < ms.length),
            (results.get ⟨i, h⟩).outcome = .ok (ms.get ⟨i, h2⟩) := by
  intro results
  induction results with
  | nil =>
    intro _
    exact ⟨[], rfl, rfl, fun i h _ => absurd h (by simp)⟩
  | cons r rest ih =>
    intro hall
    obtain ⟨m, hm⟩ := hall r (List.mem_cons_self r rest)
    obtain ⟨ms, hms, hlen, hidx⟩ := ih fun x hx => hall x (List.mem_cons_of_mem r hx)
    refine ⟨m :: ms, ?_, by simp [hlen], ?_⟩
    · simp [collectOutcomes, hm, hms, Except.map]
    · intro i h h2
      cases i with
      | zero => simpa using hm
      | succ i =>
        simpa using hidx i (Nat.lt_of_succ_lt_succ h) (Nat.lt_of_succ_lt_succ h2)

/-- If some entry of the batch rejects, `Promise.all` rejects. -/
theorem collectOutcomes_error {V : Type} :
    ∀ (results : List (CallResult V)) (r : CallResult V) (e : Err),
      r ∈ results → r.outcome = .error e →
      ∃ e2, collectOutcomes results = .error e2 := by
  intro results
  induction results with
  | nil => intro r e hmem _; cases hmem
  | cons x xs ih =>
    intro r e hmem herr
    cases hx : x.outcome with
    | error e0 => exact ⟨e0, by simp [collectOutcomes, hx]⟩
    | ok m =>
      rcases List.mem_cons.mp hmem with hrx | hmem2
      · subst hrx; rw [hx] at herr; cases herr
      · obtain ⟨e2, he2⟩ := ih r e hmem2 herr
        exact ⟨e2, by simp [collectOutcomes, hx, he2, Except.map]⟩

/-! ### Loop invariants -/

theorem processLoop_curRef {V : Type} (tools : List (Capability V)) (env : ChatEnv V) :
    ∀ (rem callIdx : Nat) (st : MsgStore) (cur : Nat),
      (processLoop tools env rem callIdx st cur).curRef = cur := by
  intro rem
  induction rem with
  | zero => intros; rfl
  | succ rem ih =>
    intro callIdx st cur
    simp only [processLoop]
    split
    · rfl
    · split
      · rfl
      · rfl
      · split
        · rfl
        · simp [addRound, ih]

theorem processLoop_store_frame {V : Type} (tools : List (Capability V)) (env : ChatEnv V) :
    ∀ (rem callIdx : Nat) (st : MsgStore) (cur i : Nat), i ≠ cur →
      (processLoop tools env rem callIdx st cur).store.getArr i = st.getArr i := by
  intro rem
  induction rem with
  | zero => intros; rfl
  | succ rem ih =>
    intro callIdx st cur i hne
    simp only [processLoop]
    split
    · rfl
    · split
      · rfl
      · rfl
      · split
        · rfl
        · simp only [addRound]
          rw [ih (callIdx + 1) _ cur i hne]
          exact MsgStore.getArr_push_ne st cur i _ hne

theorem processLoop_chatCalls_le {V : Type} (tools : List (Capability V)) (env : ChatEnv V) :
    ∀ (rem callIdx : Nat) (st : MsgStore) (cur : Nat),
      (processLoop tools env rem callIdx st cur).chatCalls ≤ rem := by
  intro rem
  induction rem with
  | zero => intros; exact Nat.le_refl 0
  | succ rem ih =>
    intro callIdx st cur
    simp only [processLoop]
    split
    · exact Nat.succ_le_succ (Nat.zero_le rem)
    · split
      · exact Nat.succ_le_succ (Nat.zero_le rem)
      · exact Nat.succ_le_succ (Nat.zero_le rem)
      · split
        · exact Nat.succ_le_succ (Nat.zero_le rem)
        · simpa [addRound] using Nat.succ_le_succ (ih (callIdx + 1) _ cur)

/-- A round whose assistant message has no tool calls returns the completion
immediately, touching neither the store nor any trace. -/
theorem processLoop_done {V : Type} (tools : List (Capability V)) (env : ChatEnv V)
    (rem callIdx : Nat) (st : MsgStore) (cur : Nat) (m : AssistantMessage)
    (hm : completionMessage (env.chat callIdx) = some m)
    (ht : m.tool_calls = none ∨ m.tool_calls = some []) :
    processLoop tools env (rem + 1) callIdx st cur =
      { result := .ok (env.chat callIdx), chatCalls := 1, runCalls := [], errors := []
        store := st, curRef := cur } := by
  simp only [processLoop, hm]
  rcases ht with h | h <;> simp only [h]

/-- A batch of well-formed tool calls fulfills with one tool-result message
per call, in call order. -/
theorem runToolCallBatch_ok {V : Type} (tools : List (Capability V)) (env : ChatEnv V)
    (curMsgs : List ChatMessage) (tcs : List ToolCall)
    (hwf : ∀ tc ∈ tcs, ∃ fn v, tc.function = some fn ∧ env.parseJson fn.arguments = .ok v) :
    ∃ ms, (runToolCallBatch tools env curMsgs tcs).outcome = .ok ms
      ∧ ms.length = tcs.length
      ∧ ∀ i (h : i < tcs.length) (h2 : i < ms.length),
          (execToolCall tools env curMsgs (tcs.get ⟨i, h⟩)).outcome = .ok (ms.get ⟨i, h2⟩) := by
  have hall : ∀ r ∈ tcs.map (execToolCall tools env curMsgs), ∃ m, r.outcome = .ok m := by
    intro r hr
    obtain ⟨tc, htc, rfl⟩ := List.mem_map.mp hr
    obtain ⟨fn, v, hfn, hv⟩ := hwf tc htc
    obtain ⟨content, hc⟩ := execToolCall_ok tools env curMsgs tc fn v hfn hv
    exact ⟨_, hc⟩
  obtain ⟨ms, hms, hlen, hidx⟩ := collectOutcomes_ok _ hall
  refine ⟨ms, hms, by simpa using hlen, ?_⟩
  intro i h h2
  have hx := hidx i (by simpa using h) h2
  simpa using hx

/-- When every remaining round yields well-formed tool calls, the loop
consumes its whole budget and throws the max-iterations error. -/
theorem processLoop_exhausts {V : Type} (tools : List (Capability V)) (env : ChatEnv V) :
    ∀ (rem callIdx : Nat) (st : MsgStore) (cur : Nat),
      (∀ n, callIdx ≤ n → n < callIdx + rem → roundHasToolCalls env n) →
      (processLoop tools env rem callIdx st cur).result =
          .error ⟨.error, "Max iterations reached without completion"⟩
        ∧ (processLoop tools env rem callIdx st cur).chatCalls = rem := by
  intro rem
  induction rem with
  | zero => intro callIdx st cur _; exact ⟨rfl, rfl⟩
  | succ rem ih =>
    intro callIdx st cur h
    obtain ⟨m, tcs, hm, htc, hne, hwf⟩ := h callIdx (Nat.le_refl _) (by omega)
    obtain ⟨tc0, tcs', rfl⟩ : ∃ tc0 tcs', tcs = tc0 :: tcs' := by
      cases tcs with
      | nil => exact absurd rfl hne
      | cons a b => exact ⟨a, b, rfl⟩
    obtain ⟨ms, hms, -, -⟩ := runToolCallBatch_ok tools env (st.getArr cur) (tc0 :: tcs') hwf
    have hrest := ih (callIdx + 1) (st.push cur (.assistant m :: ms)) cur
      (fun n h1 h2 => h n (by omega) (by omega))
    simp only [processLoop, hm, htc, hms, addRound]
    exact ⟨hrest.1, by rw [hrest.2]⟩

/-! ### Iteration bound (claim C6) -/

/-- C6: `process` makes at most 10 chat-completion collaborator calls for
every environment; when the credential is present and the first response has
no tool calls it returns that completion after exactly one call; and when all
10 budgeted rounds yield (well-formed) tool calls it fails with the
max-iterations error after exactly 10 calls, never making an 11th. -/
theorem process_collaborator_call_bound {V : Type} (opts : AgentOptions) (env : EnvVars)
    (tools : List (Capability V)) (chatEnv : ChatEnv V) (st : MsgStore) (ref : Nat) :
    ((process opts env tools chatEnv st ref).chatCalls ≤ 10)
    ∧ (∀ k, resolveOpenaiKey opts env = some k →
        ∀ m, completionMessage (chatEnv.chat 0) = some m →
        (m.tool_calls = none ∨ m.tool_calls = some []) →
        (process opts env tools chatEnv st ref).chatCalls = 1
          ∧ (process opts env tools chatEnv st ref).result = .ok (chatEnv.chat 0))
    ∧ (∀ k, resolveOpenaiKey opts env = some k →
        (∀ n, n < 10 → roundHasToolCalls chatEnv n) →
        (process opts env tools chatEnv st ref).result =
            .error ⟨.error, "Max iterations reached without completion"⟩
          ∧ (process opts env tools chatEnv st ref).chatCalls = 10) := by
  refine ⟨?_, ?_, ?_⟩
  · cases hk : resolveOpenaiKey opts env with
    | none => simp [process, hk]
    | some k =>
      have hle := processLoop_chatCalls_le tools chatEnv MAX_ITERATIONS 0
        (st.alloc (st.getArr ref)).1 (st.alloc (st.getArr ref)).2
      simp only [process, hk]
      split
      · exact hle
      · exact hle
  · intro k hk m hm ht
    have h10 : processLoop tools chatEnv MAX_ITERATIONS 0
        (st.alloc (st.getArr ref)).1 (st.alloc (st.getArr ref)).2 =
        { result := .ok (chatEnv.chat 0), chatCalls := 1, runCalls := [], errors := []
          store := (st.alloc (st.getArr ref)).1, curRef := (st.alloc (st.getArr ref)).2 } :=
      processLoop_done tools chatEnv 9 0 _ _ m hm ht
    constructor <;> simp [process, hk, h10]
  · intro k hk hall
    have hloop := processLoop_exhausts tools chatEnv MAX_ITERATIONS 0
        (st.alloc (st.getArr ref)).1 (st.alloc (st.getArr ref)).2
        (fun n _ h2 => hall n (by simpa [MAX_ITERATIONS] using h2))
    simp only [MAX_ITERATIONS] at hloop
    constructor
    · simp [process, hk, MAX_ITERATIONS, hloop.1]
    · simp [process, hk, MAX_ITERATIONS, hloop.1, hloop.2]

/-- Witness for C6: a first response with no tool calls makes `process`
return it after exactly one collaborator call. -/
theorem process_collaborator_call_bound_witness :
    (process ⟨none, some "pk", "sys", some "ok"⟩ ⟨none, none⟩ ([] : List (Capability Nat))
        c6chatEnv ⟨[[ChatMessage.user "Hello"]]⟩ 0).chatCalls = 1
    ∧ (process ⟨none, some "pk", "sys", some "ok"⟩ ⟨none, none⟩ ([] : List (Capability Nat))
        c6chatEnv ⟨[[ChatMessage.user "Hello"]]⟩ 0).result = .ok ⟨[⟨some ⟨some "done", none⟩⟩]⟩ :=
  (process_collaborator_call_bound ⟨none, some "pk", "sys", some "ok"⟩ ⟨none, none⟩
    [] c6chatEnv ⟨[[ChatMessage.user "Hello"]]⟩ 0).2.1 "ok" rfl ⟨some "done", none⟩ rfl (Or.inl rfl)

/-! ### Frame property (claim C10) -/

/-- C10: `process` never mutates the caller-supplied messages array: it
spreads the array into a freshly allocated copy before the loop and appends
the assistant and tool-result messages only to that copy, so every array slot
that existed before the call — in particular the caller's array — holds
exactly the same elements after `process` returns or fails. -/
theorem process_preserves_caller_messages {V : Type} (opts : AgentOptions) (env : EnvVars)
    (tools : List (Capability V)) (chatEnv : ChatEnv V) (st : MsgStore) (ref : Nat) :
    ∀ i, i < st.arrays.length →
      (process opts env tools chatEnv st ref).store.getArr i = st.getArr i := by
  intro i hi
  cases hk : resolveOpenaiKey opts env with
  | none => simp [process, hk]
  | some k =>
    have hframe := processLoop_store_frame tools chatEnv MAX_ITERATIONS 0
        (st.alloc (st.getArr ref)).1 (st.alloc (st.getArr ref)).2 i (Nat.ne_of_lt hi)
    have hcopy : (st.alloc (st.getArr ref)).1.getArr i = st.getArr i := by
      show (st.arrays ++ [st.getArr ref]).getD i [] = st.arrays.getD i []
      exact list_getD_append_left [] st.arrays [st.getArr ref] i hi
    simp only [process, hk]
    split
    · exact hframe.trans hcopy
    · exact hframe.trans hcopy

/-- Witness for C10: with one caller array in the store, its slot is
untouched by a full `process` run. -/
theorem process_preserves_caller_messages_witness :
    (process ⟨none, some "pk", "sys", some "ok"⟩ ⟨none, none⟩ ([] : List (Capability Nat))
        c6chatEnv ⟨[[ChatMessage.user "Hello"]]⟩ 0).store.getArr 0 = [ChatMessage.user "Hello"] :=
  process_preserves_caller_messages ⟨none, some "pk", "sys", some "ok"⟩ ⟨none, none⟩
    [] c6chatEnv ⟨[[ChatMessage.user "Hello"]]⟩ 0 0 (by decide)

/-! ### More shared loop lemmas -/

theorem MsgStore.getArr_alloc_self (st : MsgStore) (ms : List ChatMessage) :
    (st.alloc ms).1.getArr (st.alloc ms).2 = ms := by
  show (st.arrays ++ [ms]).getD st.arrays.length [] = ms
  exact list_getD_concat_length [] st.arrays ms

/-- With the credential present, the outer try/catch of `process` changes
only the error-handler trace: every other observable equals the loop's. -/
theorem process_projections {V : Type} (opts : AgentOptions) (env : EnvVars)
    (tools : List (Capability V)) (chatEnv : ChatEnv V) (st : MsgStore) (ref : Nat)
    (k : String) (hk : resolveOpenaiKey opts env = some k) :
    (process opts env tools chatEnv st ref).result =
        (processLoop tools chatEnv MAX_ITERATIONS 0
          (st.alloc (st.getArr ref)).1 (st.alloc (st.getArr ref)).2).result
    ∧ (process opts env tools chatEnv st ref).chatCalls =
        (processLoop tools chatEnv MAX_ITERATIONS 0
          (st.alloc (st.getArr ref)).1 (st.alloc (st.getArr ref)).2).chatCalls
    ∧ (process opts env tools chatEnv st ref).runCalls =
        (processLoop tools chatEnv MAX_ITERATIONS 0
          (st.alloc (st.getArr ref)).1 (st.alloc (st.getArr ref)).2).runCalls
    ∧ (process opts env tools chatEnv st ref).store =
        (processLoop tools chatEnv MAX_ITERATIONS 0
          (st.alloc (st.getArr ref)).1 (st.alloc (st.getArr ref)).2).store
    ∧ (process opts env tools chatEnv st ref).curRef =
        (processLoop tools chatEnv MAX_ITERATIONS 0
          (st.alloc (st.getArr ref)).1 (st.alloc (st.getArr ref)).2).curRef := by
  refine ⟨?_, ?_, ?_, ?_, ?_⟩ <;> · simp only [process, hk]; split <;> rfl

/-- One loop round with a nonempty tool-call list and a fulfilled batch: push
the assistant message and the batch's tool results, then continue. -/
theorem processLoop_round_step {V : Type} (tools : List (Capability V)) (env : ChatEnv V)
    (rem callIdx : Nat) (st : MsgStore) (cur : Nat) (m : AssistantMessage)
    (tcs : List ToolCall) (toolMsgs : List ChatMessage)
    (hm : completionMessage (env.chat callIdx) = some m)
    (htc : m.tool_calls = some tcs)
    (hne : tcs ≠ [])
    (hms : (runToolCallBatch tools env (st.getArr cur) tcs).outcome = .ok toolMsgs) :
    processLoop tools env (rem + 1) callIdx st cur =
      addRound (runToolCallBatch tools env (st.getArr cur) tcs)
        (processLoop tools env rem (callIdx + 1)
          (st.push cur (.assistant m :: toolMsgs)) cur) := by
  obtain ⟨tc0, tcs', rfl⟩ : ∃ a b, tcs = a :: b := by
    cases tcs with
    | nil => exact absurd rfl hne
    | cons a b => exact ⟨a, b, rfl⟩
  simp only [processLoop, hm, htc, hms]

/-- One loop round whose batch rejects: the loop aborts with that error and
nothing is pushed. -/
theorem processLoop_batch_abort {V : Type} (tools : List (Capability V)) (env : ChatEnv V)
    (rem callIdx : Nat) (st : MsgStore) (cur : Nat) (m : AssistantMessage)
    (tcs : List ToolCall) (e : Err)
    (hm : completionMessage (env.chat callIdx) = some m)
    (htc : m.tool_calls = some tcs)
    (hne : tcs ≠ [])
    (hout : (runToolCallBatch tools env (st.getArr cur) tcs).outcome = .error e) :
    processLoop tools env (rem + 1) callIdx st cur =
      { result := .error e, chatCalls := 1
        runCalls := (runToolCallBatch tools env (st.getArr cur) tcs).runCalls
        errors := (runToolCallBatch tools env (st.getArr cur) tcs).errors
        store := st, curRef := cur } := by
  obtain ⟨tc0, tcs', rfl⟩ : ∃ a b, tcs = a :: b := by
    cases tcs with
    | nil => exact absurd rfl hne
    | cons a b => exact ⟨a, b, rfl⟩
  simp only [processLoop, hm, htc, hout]

/-! ### Parse failures abort the batch (claim C1) -/

/-- C1 counterexample: the first round requests two tool calls; the first
call's argument string `bad` fails `JSON.parse` while the second is a
well-formed call to the registered `echo` tool.  The claim demands that only
the first call fail and that the sibling still produce its tool-result with
the loop proceeding; instead `process` rejects with the parse error after its
single collaborator call, and the conversation copy still holds only the seed
message — no tool-result for `call_2` exists anywhere. -/
theorem process_parse_error_fails_batch_counterexample :
    (process ⟨none, some "pk", "sys", some "ok"⟩ ⟨none, none⟩ [c1echo] c1chatEnv
        ⟨[[ChatMessage.user "Hi"]]⟩ 0).result = .error ⟨.error, "Unexpected token"⟩
    ∧ (process ⟨none, some "pk", "sys", some "ok"⟩ ⟨none, none⟩ [c1echo] c1chatEnv
        ⟨[[ChatMessage.user "Hi"]]⟩ 0).chatCalls = 1
    ∧ (process ⟨none, some "pk", "sys", some "ok"⟩ ⟨none, none⟩ [c1echo] c1chatEnv
        ⟨[[ChatMessage.user "Hi"]]⟩ 0).store.getArr 1 = [ChatMessage.user "Hi"] := by
  refine ⟨?_, ?_, ?_⟩ <;> rfl

/-- C1 (amended): a failure to JSON-parse a requested tool call's argument
string — or a missing `function` field — in the first round fails the whole
batch, not only that call: `process` rejects with an error after exactly one
collaborator call and appends nothing, the conversation copy still holding
exactly the caller's messages.  Per-call containment applies only to failures
raised after parsing (registry lookup and `run` errors; see the C7 theorem). -/
theorem process_parse_error_fails_batch {V : Type} (opts : AgentOptions) (env : EnvVars)
    (tools : List (Capability V)) (chatEnv : ChatEnv V) (st : MsgStore) (ref : Nat)
    (k : String) (m : AssistantMessage) (tcs : List ToolCall) (tc : ToolCall)
    (hk : resolveOpenaiKey opts env = some k)
    (hm : completionMessage (chatEnv.chat 0) = some m)
    (htc : m.tool_calls = some tcs)
    (hmem : tc ∈ tcs)
    (hbad : tc.function = none ∨
            ∃ fn msg, tc.function = some fn ∧ chatEnv.parseJson fn.arguments = .error msg) :
    (∃ e, (process opts env tools chatEnv st ref).result = .error e)
    ∧ (process opts env tools chatEnv st ref).chatCalls = 1
    ∧ (process opts env tools chatEnv st ref).store.getArr
        (process opts env tools chatEnv st ref).curRef = st.getArr ref := by
  have hexec : ∃ e, (execToolCall tools chatEnv
      ((st.alloc (st.getArr ref)).1.getArr (st.alloc (st.getArr ref)).2) tc).outcome =
      .error e := by
    rcases hbad with h | ⟨fn, msg, hfn, hp⟩
    · refine ⟨⟨.error, "Tool call function is missing"⟩, ?_⟩
      simp [execToolCall, h]
    · refine ⟨⟨.error, msg⟩, ?_⟩
      simp [execToolCall, hfn, hp]
  obtain ⟨e, he⟩ := hexec
  obtain ⟨e2, he2⟩ := collectOutcomes_error
      (tcs.map (execToolCall tools chatEnv
        ((st.alloc (st.getArr ref)).1.getArr (st.alloc (st.getArr ref)).2))) _ e
      (List.mem_map_of_mem _ hmem) he
  have hne : tcs ≠ [] := by
    intro h
    rw [h] at hmem
    cases hmem
  have habort : processLoop tools chatEnv MAX_ITERATIONS 0
      (st.alloc (st.getArr ref)).1 (st.alloc (st.getArr ref)).2 =
      { result := .error e2, chatCalls := 1
        runCalls := (runToolCallBatch tools chatEnv
          ((st.alloc (st.getArr ref)).1.getArr (st.alloc (st.getArr ref)).2) tcs).runCalls
        errors := (runToolCallBatch tools chatEnv
          ((st.alloc (st.getArr ref)).1.getArr (st.alloc (st.getArr ref)).2) tcs).errors
        store := (st.alloc (st.getArr ref)).1
        curRef := (st.alloc (st.getArr ref)).2 } :=
    processLoop_batch_abort tools chatEnv 9 0 _ _ m tcs e2 hm htc hne he2
  obtain ⟨hres, hcalls, -, hstore, hcur⟩ :=
    process_projections opts env tools chatEnv st ref k hk
  refine ⟨⟨e2, ?_⟩, ?_, ?_⟩
  · rw [hres, habort]
  · rw [hcalls, habort]
  · rw [hstore, hcur, habort]
    exact MsgStore.getArr_alloc_self st (st.getArr ref)

/-- Witness for the amended C1 at the concrete two-call round of the
counterexample environment. -/
theorem process_parse_error_fails_batch_witness :
    (∃ e, (process ⟨none, some "pk", "sys", some "ok"⟩ ⟨none, none⟩ [c1echo] c1chatEnv
        ⟨[[ChatMessage.user "Hi"]]⟩ 0).result = .error e)
    ∧ (process ⟨none, some "pk", "sys", some "ok"⟩ ⟨none, none⟩ [c1echo] c1chatEnv
        ⟨[[ChatMessage.user "Hi"]]⟩ 0).chatCalls = 1
    ∧ (process ⟨none, some "pk", "sys", some "ok"⟩ ⟨none, none⟩ [c1echo] c1chatEnv
        ⟨[[ChatMessage.user "Hi"]]⟩ 0).store.getArr
        (process ⟨none, some "pk", "sys", some "ok"⟩ ⟨none, none⟩ [c1echo] c1chatEnv
          ⟨[[ChatMessage.user "Hi"]]⟩ 0).curRef =
      MsgStore.getArr ⟨[[ChatMessage.user "Hi"]]⟩ 0 :=
  process_parse_error_fails_batch ⟨none, some "pk", "sys", some "ok"⟩ ⟨none, none⟩
    [c1echo] c1chatEnv ⟨[[ChatMessage.user "Hi"]]⟩ 0 "ok"
    ⟨none, some [⟨"call_1", some ⟨"echo", "bad"⟩⟩, ⟨"call_2", some ⟨"echo", "5"⟩⟩]⟩
    [⟨"call_1", some ⟨"echo", "bad"⟩⟩, ⟨"call_2", some ⟨"echo", "5"⟩⟩]
    ⟨"call_1", some ⟨"echo", "bad"⟩⟩ rfl rfl rfl (by decide)
    (Or.inr ⟨⟨"echo", "bad"⟩, "Unexpected token", rfl, rfl⟩)

/-! ### Round growth (claim C7) -/

/-- C7 counterexample: a round requesting K = 1 tool call whose argument
string fails `JSON.parse`.  The claim demands the message list grow by the
assistant message plus one tool-result correlated to `call_9`; instead the
round aborts — the conversation copy still holds only the seed message and
`process` fails with the parse error. -/
theorem process_round_no_growth_counterexample :
    (process ⟨none, some "pk", "sys", some "ok"⟩ ⟨none, none⟩ [c1echo] c7chatEnv
        ⟨[[ChatMessage.user "Hi"]]⟩ 0).store.getArr 1 = [ChatMessage.user "Hi"]
    ∧ (process ⟨none, some "pk", "sys", some "ok"⟩ ⟨none, none⟩ [c1echo] c7chatEnv
        ⟨[[ChatMessage.user "Hi"]]⟩ 0).result = .error ⟨.error, "Unexpected token o"⟩ := by
  exact ⟨rfl, rfl⟩

/-- C7 (amended): in every round whose assistant message requests K tool
calls each carrying a `function` field with JSON-parseable arguments, the
current message array grows by exactly the assistant message followed by K
tool-result messages in call-list order, each correlated by its originating
call's id, and the loop proceeds to the next iteration; a call whose registry
lookup or `run` execution fails still yields its tool-result carrying the
`jsonErrorObj` payload (plus a `tool_execution` handler notification) rather
than aborting the round.  Rounds containing a call with a missing function or
unparseable arguments are excluded: they abort the whole batch (see the C1
theorems). -/
theorem processLoop_round_appends {V : Type} (tools : List (Capability V)) (env : ChatEnv V)
    (rem callIdx : Nat) (st : MsgStore) (cur : Nat) (m : AssistantMessage)
    (tcs : List ToolCall)
    (hm : completionMessage (env.chat callIdx) = some m)
    (htc : m.tool_calls = some tcs)
    (hne : tcs ≠ [])
    (hwf : ∀ tc ∈ tcs, ∃ fn v, tc.function = some fn ∧ env.parseJson fn.arguments = .ok v) :
    ∃ toolMsgs,
      (runToolCallBatch tools env (st.getArr cur) tcs).outcome = .ok toolMsgs
      ∧ toolMsgs.length = tcs.length
      ∧ (∀ i (h : i < tcs.length) (h2 : i < toolMsgs.length),
          ∃ content, toolMsgs.get ⟨i, h2⟩ = .tool content (tcs.get ⟨i, h⟩).id)
      ∧ processLoop tools env (rem + 1) callIdx st cur =
          addRound (runToolCallBatch tools env (st.getArr cur) tcs)
            (processLoop tools env rem (callIdx + 1)
              (st.push cur (.assistant m :: toolMsgs)) cur)
      ∧ (∀ tc fn v, tc ∈ tcs → tc.function = some fn →
          env.parseJson fn.arguments = .ok v →
          (tools.find? (fun t => t.name == fn.name) = none →
            (execToolCall tools env (st.getArr cur) tc).outcome =
              .ok (.tool (.jsonErrorObj ("Tool \"" ++ fn.name ++ "\" not found")) tc.id)
            ∧ (execToolCall tools env (st.getArr cur) tc).errors =
              [⟨"tool_execution", ⟨.error, "Tool \"" ++ fn.name ++ "\" not found"⟩⟩])
          ∧ ∀ tool e, tools.find? (fun t => t.name == fn.name) = some tool →
              tool.run v none (st.getArr cur) = .error e →
              (execToolCall tools env (st.getArr cur) tc).outcome =
                .ok (.tool (.jsonErrorObj e.message) tc.id)
              ∧ (execToolCall tools env (st.getArr cur) tc).errors =
                [⟨"tool_execution", e⟩]) := by
  obtain ⟨ms, hms, hlen, hidx⟩ := runToolCallBatch_ok tools env (st.getArr cur) tcs hwf
  refine ⟨ms, hms, hlen, ?_, ?_, ?_⟩
  · intro i h h2
    exact execToolCall_ok_shape tools env (st.getArr cur) (tcs.get ⟨i, h⟩) _ (hidx i h h2)
  · exact processLoop_round_step tools env rem callIdx st cur m tcs ms hm htc hne hms
  · intro tc fn v _ hfn hp
    constructor
    · intro hf
      constructor <;> simp [execToolCall, hfn, hp, hf]
    · intro tool e hf hr
      constructor <;> simp [execToolCall, hfn, hp, hf, hr]

/-- Witness for the amended C7: a two-call round — one call to the
unregistered name `ghost`, one to the registered `boom` whose `run` throws —
still yields two tool-results and continues. -/
theorem processLoop_round_appends_witness :
    ∃ toolMsgs,
      (runToolCallBatch [c7boom] c7witnessEnv
          (MsgStore.getArr ⟨[[ChatMessage.user "Hi"]]⟩ 0)
          [⟨"call_a", some ⟨"ghost", "1"⟩⟩, ⟨"call_b", some ⟨"boom", "2"⟩⟩]).outcome =
        .ok toolMsgs
      ∧ toolMsgs.length =
          ([⟨"call_a", some ⟨"ghost", "1"⟩⟩,
            ⟨"call_b", some ⟨"boom", "2"⟩⟩] : List ToolCall).length
      ∧ (∀ i (h : i < ([⟨"call_a", some ⟨"ghost", "1"⟩⟩,
            ⟨"call_b", some ⟨"boom", "2"⟩⟩] : List ToolCall).length)
            (h2 : i < toolMsgs.length),
          ∃ content, toolMsgs.get ⟨i, h2⟩ = .tool content
            (([⟨"call_a", some ⟨"ghost", "1"⟩⟩,
               ⟨"call_b", some ⟨"boom", "2"⟩⟩] : List ToolCall).get ⟨i, h⟩).id)
      ∧ processLoop [c7boom] c7witnessEnv (9 + 1) 0 ⟨[[ChatMessage.user "Hi"]]⟩ 0 =
          addRound (runToolCallBatch [c7boom] c7witnessEnv
              (MsgStore.getArr ⟨[[ChatMessage.user "Hi"]]⟩ 0)
              [⟨"call_a", some ⟨"ghost", "1"⟩⟩, ⟨"call_b", some ⟨"boom", "2"⟩⟩])
            (processLoop [c7boom] c7witnessEnv 9 (0 + 1)
              (MsgStore.push ⟨[[ChatMessage.user "Hi"]]⟩ 0
                (.assistant ⟨none, some [⟨"call_a", some ⟨"ghost", "1"⟩⟩,
                  ⟨"call_b", some ⟨"boom", "2"⟩⟩]⟩ :: toolMsgs)) 0)
      ∧ (∀ tc fn v, tc ∈ ([⟨"call_a", some ⟨"ghost", "1"⟩⟩,
            ⟨"call_b", some ⟨"boom", "2"⟩⟩] : List ToolCall) → tc.function = some fn →
          c7witnessEnv.parseJson fn.arguments = .ok v →
          ([c7boom].find? (fun t => t.name == fn.name) = none →
            (execToolCall [c7boom] c7witnessEnv
                (MsgStore.getArr ⟨[[ChatMessage.user "Hi"]]⟩ 0) tc).outcome =
              .ok (.tool (.jsonErrorObj ("Tool \"" ++ fn.name ++ "\" not found")) tc.id)
            ∧ (execToolCall [c7boom] c7witnessEnv
                (MsgStore.getArr ⟨[[ChatMessage.user "Hi"]]⟩ 0) tc).errors =
              [⟨"tool_execution", ⟨.error, "Tool \"" ++ fn.name ++ "\" not found"⟩⟩])
          ∧ ∀ tool e, [c7boom].find? (fun t => t.name == fn.name) = some tool →
              tool.run v none (MsgStore.getArr ⟨[[ChatMessage.user "Hi"]]⟩ 0) = .error e →
              (execToolCall [c7boom] c7witnessEnv
                  (MsgStore.getArr ⟨[[ChatMessage.user "Hi"]]⟩ 0) tc).outcome =
                .ok (.tool (.jsonErrorObj e.message) tc.id)
              ∧ (execToolCall [c7boom] c7witnessEnv
                  (MsgStore.getArr ⟨[[ChatMessage.user "Hi"]]⟩ 0) tc).errors =
                [⟨"tool_execution", e⟩]) :=
  processLoop_round_appends [c7boom] c7witnessEnv 9 0 ⟨[[ChatMessage.user "Hi"]]⟩ 0
    ⟨none, some [⟨"call_a", some ⟨"ghost", "1"⟩⟩, ⟨"call_b", some ⟨"boom", "2"⟩⟩]⟩
    [⟨"call_a", some ⟨"ghost", "1"⟩⟩, ⟨"call_b", some ⟨"boom", "2"⟩⟩]
    rfl rfl (by decide)
    (by
      intro tc htc
      rcases List.mem_cons.mp htc with rfl | htc2
      · exact ⟨⟨"ghost", "1"⟩, 1, rfl, rfl⟩
      rcases List.mem_cons.mp htc2 with rfl | h
      · exact ⟨⟨"boom", "2"⟩, 2, rfl, rfl⟩
      · cases h)

/-! ### Schema validation before run (claim C2) -/

/-- C2 counterexample: the registered tool `strict` declares a schema that
rejects every input, yet the Conversation Loop invokes its `run` with the
JSON-parsed argument `7` — `run` observes input the declared schema rejects,
because `process` only calls `JSON.parse` and never the schema. -/
theorem process_runs_unvalidated_args_counterexample :
    (process ⟨none, some "pk", "sys", some "ok"⟩ ⟨none, none⟩ [c2strict] c2chatEnv
        ⟨[[ChatMessage.user "Hi"]]⟩ 0).runCalls = [("strict", 7)]
    ∧ c2strict.schema (some 7) = .error ⟨.error, "invalid input"⟩ := by
  exact ⟨rfl, rfl⟩

/-- C2 (amended): only the HTTP tool route validates: every `run` invocation
made by `handleToolRoute` received a value produced by the tool's declared
schema.  The Conversation Loop does not validate: whenever the first response
requests a call whose argument string JSON-parses to `v` and the named tool
is registered, `run` is invoked with `v` itself — no schema hypothesis
appears, so `run` can observe schema-invalid input there. -/
theorem run_input_validation_by_entrypoint {V : Type} :
    (∀ (tools : List (Capability V)) (req : ToolRouteRequest V) (p : String × V),
        p ∈ (handleToolRoute tools req).runCalls →
        ∃ name tool, req.toolName = some name
          ∧ tools.find? (fun t => t.name == name) = some tool
          ∧ p.1 = tool.name ∧ tool.schema req.args = .ok p.2)
    ∧ (∀ (opts : AgentOptions) (env : EnvVars) (tools : List (Capability V))
          (chatEnv : ChatEnv V) (st : MsgStore) (ref : Nat) (k : String)
          (m : AssistantMessage) (id : String) (fn : ToolFunction) (v : V)
          (tool : Capability V),
        resolveOpenaiKey opts env = some k →
        completionMessage (chatEnv.chat 0) = some m →
        m.tool_calls = some [⟨id, some fn⟩] →
        chatEnv.parseJson fn.arguments = .ok v →
        tools.find? (fun t => t.name == fn.name) = some tool →
        ∃ rest, (process opts env tools chatEnv st ref).runCalls = (fn.name, v) :: rest) := by
  constructor
  · intro tools req p hp
    cases hname : req.toolName with
    | none => simp [handleToolRoute, hname, routeFail] at hp
    | some name =>
      cases hfind : tools.find? (fun t => t.name == name) with
      | none => simp [handleToolRoute, hname, hfind, routeFail] at hp
      | some tool =>
        cases hsch : tool.schema req.args with
        | error e => simp [handleToolRoute, hname, hfind, hsch, routeFail] at hp
        | ok a =>
          refine ⟨name, tool, rfl, hfind, ?_⟩
          cases hrun : tool.run a req.action (req.messages.getD []) with
          | ok r =>
            simp [handleToolRoute, hname, hfind, hsch, hrun] at hp
            subst hp
            exact ⟨rfl, hsch⟩
          | error e =>
            simp [handleToolRoute, hname, hfind, hsch, hrun, routeFail] at hp
            subst hp
            exact ⟨rfl, hsch⟩
  · intro opts env tools chatEnv st ref k m id fn v tool hk hm htc hp hfind
    have hwf : ∀ tc ∈ ([⟨id, some fn⟩] : List ToolCall),
        ∃ f w, tc.function = some f ∧ chatEnv.parseJson f.arguments = .ok w := by
      intro tc htcm
      rcases List.mem_cons.mp htcm with rfl | h
      · exact ⟨fn, v, rfl, hp⟩
      · cases h
    obtain ⟨ms, hms, -, -⟩ := runToolCallBatch_ok tools chatEnv
        ((st.alloc (st.getArr ref)).1.getArr (st.alloc (st.getArr ref)).2)
        [⟨id, some fn⟩] hwf
    have hstep : processLoop tools chatEnv MAX_ITERATIONS 0
        (st.alloc (st.getArr ref)).1 (st.alloc (st.getArr ref)).2 =
        addRound (runToolCallBatch tools chatEnv
            ((st.alloc (st.getArr ref)).1.getArr (st.alloc (st.getArr ref)).2)
            [⟨id, some fn⟩])
          (processLoop tools chatEnv 9 (0 + 1)
            ((st.alloc (st.getArr ref)).1.push (st.alloc (st.getArr ref)).2
              (.assistant m :: ms)) (st.alloc (st.getArr ref)).2) :=
      processLoop_round_step tools chatEnv 9 0 _ _ m [⟨id, some fn⟩] ms hm htc
        (by simp) hms
    have hbr : (runToolCallBatch tools chatEnv
        ((st.alloc (st.getArr ref)).1.getArr (st.alloc (st.getArr ref)).2)
        [⟨id, some fn⟩]).runCalls = [(fn.name, v)] := by
      cases hr : tool.run v none
          ((st.alloc (st.getArr ref)).1.getArr (st.alloc (st.getArr ref)).2) <;>
        simp [runToolCallBatch, execToolCall, hp, hfind, hr]
    obtain ⟨-, -, hruns, -, -⟩ := process_projections opts env tools chatEnv st ref k hk
    refine ⟨(processLoop tools chatEnv 9 (0 + 1)
        ((st.alloc (st.getArr ref)).1.push (st.alloc (st.getArr ref)).2
          (.assistant m :: ms)) (st.alloc (st.getArr ref)).2).runCalls, ?_⟩
    rw [hruns, hstep]
    simp [addRound, hbr]

/-- Witness for the amended C2: at the counterexample instantiation, the tool
route part applies to the empty trace and the loop part yields the
`("strict", 7)` invocation. -/
theorem run_input_validation_by_entrypoint_witness :
    ∃ rest, (process ⟨none, some "pk", "sys", some "ok"⟩ ⟨none, none⟩ [c2strict] c2chatEnv
        ⟨[[ChatMessage.user "Hi"]]⟩ 0).runCalls = ("strict", 7) :: rest :=
  run_input_validation_by_entrypoint.2 ⟨none, some "pk", "sys", some "ok"⟩ ⟨none, none⟩
    [c2strict] c2chatEnv ⟨[[ChatMessage.user "Hi"]]⟩ 0 "ok"
    ⟨none, some [⟨"call_1", some ⟨"strict", "7"⟩⟩]⟩ "call_1" ⟨"strict", "7"⟩ 7 c2strict
    rfl rfl rfl rfl rfl

end Vortexa
